import Mathlib

/-!
Verification of the gateway core of the fluxoria analytics repository:
the Redis-backed cache, the API-key credential service, the JWT token
service, and the fixed-window rate-limit middleware.  Each definition is a
shallow embedding of the corresponding TypeScript source
(src/services/cache/RedisCache, src/services/auth/APIKeyService,
src/services/auth/JWTService, src/middleware/rateLimit).  Times are
natural numbers (milliseconds since epoch, or seconds where the source
uses seconds); JavaScript in-range integer arithmetic is modelled on Nat.
-/

set_option autoImplicit false

namespace FluxSight

/-! ## Redis cache model (src/services/cache/RedisCache.ts)

The cache is polymorphic in key and value: the source stores
JSON-serialized values under string keys; serialization is assumed to
round-trip (the source treats unparseable values as a miss, a path no
claim exercises).  The rate limiter's window key `key:windowStart` is
represented injectively by the pair (key, windowStart).  Store errors
(Redis unreachable) are modelled by the `unreachable` flag: the source
catches every Redis error inside `get`/`set`, logs it via console.error,
and returns `null` / `false`; the `log` field records those console.error
events.  No claim passes a key prefix, so `buildKey` is the identity here.
-/

/-- Console.error events emitted by the cache layer and middleware. -/
inductive LogEvent where
  | cacheGetError
  | cacheSetError
  deriving DecidableEq, Repr

/-- A live cache entry: a stored value and its absolute expiry time in ms
(set time plus the SETEX seconds argument times 1000). -/
structure CacheEntry (α : Type) where
  value : α
  expiresAt : Nat
  deriving DecidableEq, Repr

/-- State of the `RedisCache` class: the default TTL fixed by the
constructor (300000 ms), the backing key-value store, whether the store is
reachable, and the console.error log. -/
structure RedisCache (κ α : Type) where
  defaultTTL : Nat
  store : List (κ × CacheEntry α)
  unreachable : Bool
  log : List LogEvent
  deriving Repr

/-- Association-list lookup: the value stored under a key, if any. -/
def lookupStore {κ α : Type} [DecidableEq κ] :
    List (κ × CacheEntry α) → κ → Option (CacheEntry α)
  | [], _ => none
  | (k, e) :: rest, k' => if k = k' then some e else lookupStore rest k'

/-- Association-list update: Redis SET/SETEX replaces the entry under a
key. -/
def insertStore {κ α : Type} [DecidableEq κ]
    (l : List (κ × CacheEntry α)) (k : κ) (e : CacheEntry α) :
    List (κ × CacheEntry α) :=
  (k, e) :: l.filter (fun p => ¬ p.1 = k)

/-- Append a console.error event to the cache's log. -/
def RedisCache.addLog {κ α : Type} (c : RedisCache κ α) (ev : LogEvent) :
    RedisCache κ α :=
  { c with log := c.log ++ [ev] }

/-- The `RedisCache` constructor: default TTL 300000 ms (5 minutes), empty
store, reachable. -/
def RedisCache.new (κ α : Type) : RedisCache κ α :=
  { defaultTTL := 300000, store := [], unreachable := false, log := [] }

/-- `RedisCache.get`: on a store error, log and return null; otherwise
return the stored value unless the key is absent or already expired (a
Redis key set for `s` seconds at time `t` is gone once `now` reaches
`t + s*1000`). -/
def RedisCache.get {κ α : Type} [DecidableEq κ]
    (c : RedisCache κ α) (now : Nat) (k : κ) : Option α × RedisCache κ α :=
  if c.unreachable then
    (none, c.addLog .cacheGetError)
  else
    match lookupStore c.store k with
    | none => (none, c)
    | some e => if now < e.expiresAt then (some e.value, c) else (none, c)

/-- `RedisCache.set`: the effective TTL is `options?.ttl || defaultTTL`
(a supplied TTL of 0 is falsy in JavaScript and falls back to the
default); the seconds argument passed to SETEX is `floor(ttl / 1000)`.
SETEX rejects a non-positive expire time, which the source catches,
logging and returning false; on a store error it likewise logs and
returns false.  On success the entry is stored with expiry
`now + floor(ttl/1000)*1000` and the call returns true. -/
def RedisCache.set {κ α : Type} [DecidableEq κ]
    (c : RedisCache κ α) (now : Nat) (k : κ) (v : α) (ttlOpt : Option Nat) :
    Bool × RedisCache κ α :=
  if c.unreachable then
    (false, c.addLog .cacheSetError)
  else
    let ttl := match ttlOpt with
      | none => c.defaultTTL
      | some t => if t = 0 then c.defaultTTL else t
    let secs := ttl / 1000
    if secs = 0 then
      (false, c.addLog .cacheSetError)
    else
      (true, { c with store := insertStore c.store k ⟨v, now + secs * 1000⟩ })

/-! ## API key service (src/services/auth/APIKeyService.ts)

The service keeps a `Map<string, ClientApplication>` from client id to
client record; JavaScript Map iteration follows insertion order, so the
map is an association list.  `crypto.randomUUID` and
`crypto.randomBytes(32).toString('hex')` are nondeterministic and appear
as explicit parameters of `createClient`.  SHA-256 is modelled as an
injective tagging function (collision-freeness is the property the source
relies on). -/

inductive Tier where
  | free
  | standard
  | enterprise
  deriving DecidableEq, Repr

inductive ClientStatus where
  | active
  | suspended
  deriving DecidableEq, Repr

def roleRead : String := "READ"
def roleWrite : String := "WRITE"
def roleAdmin : String := "ADMIN"

/-- The `ClientApplication` record stored in the service's map.  `apiKey`
holds the hash; `apiKeyPlaintext` is the optional plaintext field the
source populates at creation. -/
structure ClientApplication where
  id : String
  name : String
  apiKey : String
  apiKeyPlaintext : Option String
  tier : Tier
  quotaPerMinute : Nat
  roles : List String
  status : ClientStatus
  createdAt : Nat
  createdBy : Option String
  lastUsedAt : Option Nat
  deriving DecidableEq, Repr

/-- `hashAPIKey`: SHA-256 hex digest, modelled as an injective tag. -/
def hashAPIKey (apiKey : String) : String :=
  "sha256-" ++ apiKey

/-- `getTierConfig`: the fixed tier table (quota per minute, roles). -/
def getTierConfig : Tier → Nat × List String
  | .free => (100, [roleRead])
  | .standard => (1000, [roleRead])
  | .enterprise => (10000, [roleRead, roleWrite, roleAdmin])

/-- The `createClient` request body. -/
structure CreateClientRequest where
  name : String
  tier : Tier
  createdBy : Option String
  deriving DecidableEq, Repr

/-- `APIKeyService.createClient`: hashes the generated key, builds the
client record — including the `apiKeyPlaintext` field, which the source
stores in the map and never clears — inserts it into the map, and returns
a shallow copy of the record. -/
def APIKeyService.createClient
    (clients : List (String × ClientApplication))
    (genClientId genKeyPlain : String) (req : CreateClientRequest)
    (now : Nat) : ClientApplication × List (String × ClientApplication) :=
  let tierConfig := getTierConfig req.tier
  let client : ClientApplication :=
    { id := genClientId
      name := req.name
      apiKey := hashAPIKey genKeyPlain
      apiKeyPlaintext := some genKeyPlain
      tier := req.tier
      quotaPerMinute := tierConfig.1
      roles := tierConfig.2
      status := .active
      createdAt := now
      createdBy := req.createdBy
      lastUsedAt := none }
  (client, (genClientId, client) :: clients.filter (fun p => ¬ p.1 = genClientId))

/-- Map lookup used by `getClient`. -/
def mapGet (clients : List (String × ClientApplication)) (clientId : String) :
    Option ClientApplication :=
  match clients with
  | [] => none
  | (i, c) :: rest => if i = clientId then some c else mapGet rest clientId

/-- `APIKeyService.getClient`: returns a shallow copy of the stored record
(all fields, `apiKeyPlaintext` included), or null. -/
def APIKeyService.getClient (clients : List (String × ClientApplication))
    (clientId : String) : Option ClientApplication :=
  mapGet clients clientId

/-- `APIKeyService.listClients`: shallow copies of every stored record. -/
def APIKeyService.listClients (clients : List (String × ClientApplication)) :
    List ClientApplication :=
  clients.map (fun p => p.2)

/-- `APIKeyService.authenticateClient`: scans the map in insertion order
for a client whose stored hash equals the hash of the presented key and
whose status is ACTIVE; on a hit it mutates that client's `lastUsedAt`
and returns it; otherwise it returns null.  The returned pair is (result,
updated map). -/
def APIKeyService.authenticateClient
    (clients : List (String × ClientApplication)) (apiKey : String)
    (now : Nat) :
    Option ClientApplication × List (String × ClientApplication) :=
  match clients with
  | [] => (none, [])
  | (i, c) :: rest =>
    if c.apiKey = hashAPIKey apiKey ∧ c.status = ClientStatus.active then
      let c' := { c with lastUsedAt := some now }
      (some c', (i, c') :: rest)
    else
      let tail := APIKeyService.authenticateClient rest apiKey now
      (tail.1, (i, c) :: tail.2)

/-! ## JWT token service (src/services/auth/JWTService.ts)

RS256 signing is modelled symbolically: a key pair is identified by one
natural number; `jwt.sign` attaches that identifier to the payload, and
`jwt.verify` accepts a token exactly when it parses and its identifier
matches the verifier's key.  A string that does not parse as a JWT is the
`malformed` constructor.  Per the jsonwebtoken library used by the
source, `verify` checks the signature before the `exp` claim, reports
expiry when the clock timestamp (seconds) has reached `exp`, and both
parse failures and signature failures raise `JsonWebTokenError`, of which
`TokenExpiredError` is the subclass the source tests first. -/

/-- JWT claims: subject (client id), roles, quota, issued-at and expiry
in seconds. -/
structure JWTPayload where
  sub : String
  roles : List String
  quotaPerMinute : Nat
  iat : Nat
  exp : Nat
  deriving DecidableEq, Repr

/-- A token: either a payload signed under a key-pair identifier, or an
unparseable string. -/
inductive Token where
  | signed (payload : JWTPayload) (sigKey : Nat)
  | malformed (raw : String)
  deriving DecidableEq, Repr

/-- Error classes thrown by the jsonwebtoken library. -/
inductive JwtLibError where
  | tokenExpiredError
  | jsonWebTokenError
  deriving DecidableEq, Repr

/-- The error message with which `jwt.sign` rejects a call that supplies
`options.expiresIn` while the payload already carries an `exp` claim. -/
def badExpiresInMsg : String :=
  "Bad \"options.expiresIn\" option the payload already has an \"exp\" property."

/-- `jwt.sign` with RS256: the library first validates its options
against the payload — supplying `options.expiresIn` when the payload
already carries an `exp` claim is rejected with `badExpiresInMsg` — and
only otherwise binds the payload to the private key's pair.  (`exp` is a
required claim of every payload this codebase builds and of the model's
payload type, so the check depends only on whether `expiresIn` is
supplied.) -/
def jwtSign (payload : JWTPayload) (privateKey : Nat)
    (expiresInSupplied : Bool) : Except String Token :=
  if expiresInSupplied then .error badExpiresInMsg
  else .ok (.signed payload privateKey)

/-- `jwt.verify` with RS256: parse, check the signature against the
public key, then reject when `exp ≤ now` (seconds). -/
def jwtLibVerify (token : Token) (publicKey : Nat) (nowSec : Nat) :
    Except JwtLibError JWTPayload :=
  match token with
  | .malformed _ => .error .jsonWebTokenError
  | .signed p k =>
    if k = publicKey then
      if p.exp ≤ nowSec then .error .tokenExpiredError else .ok p
    else .error .jsonWebTokenError

/-- State of the `JWTService` class: the key pair read by the
constructor (one pair, so both fields carry the same identifier) and the
two expiry strings (defaults '15m' and '7d'). -/
structure JWTService where
  privateKey : Nat
  publicKey : Nat
  accessTokenExpiry : String
  refreshTokenExpiry : String
  deriving DecidableEq, Repr

def defaultAccessExpiry : String := "15m"
def defaultRefreshExpiry : String := "7d"

/-- The `JWTService` constructor: loads one RSA key pair from disk and
the expiry strings from the environment. -/
def JWTService.new (keyPair : Nat) (accessExpiry refreshExpiry : String) :
    JWTService :=
  { privateKey := keyPair, publicKey := keyPair,
    accessTokenExpiry := accessExpiry, refreshTokenExpiry := refreshExpiry }

/-- Numeric value of `\d` digits, most significant first. -/
def digitsToNat (l : List Char) : Nat :=
  l.foldl (fun n c => n * 10 + (c.toNat - 48)) 0

/-- Seconds per expiry unit: the `[smhd]` alternatives of the source's
regex; any other character fails the match. -/
def unitSeconds (c : Char) : Option Nat :=
  if c = 's' then some 1
  else if c = 'm' then some 60
  else if c = 'h' then some 3600
  else if c = 'd' then some 86400
  else none

/-- `JWTService.parseExpiry`: matches `^(\d+)([smhd])$` — one or more
digits then a single unit character — and returns value times unit in
seconds; any other shape throws. -/
def JWTService.parseExpiry (s : String) : Except String Nat :=
  let cs := s.data
  let digits := cs.dropLast
  match cs.getLast? with
  | none => .error ("Invalid expiry format: " ++ s)
  | some u =>
    match unitSeconds u with
    | none => .error ("Invalid expiry format: " ++ s)
    | some mult =>
      if digits = [] then .error ("Invalid expiry format: " ++ s)
      else if digits.all Char.isDigit then .ok (digitsToNat digits * mult)
      else .error ("Invalid expiry format: " ++ s)

/-- The access/refresh token pair returned by `generateTokenPair`. -/
structure TokenPair where
  accessToken : Token
  refreshToken : Token
  deriving DecidableEq, Repr

/-- `JWTService.generateTokenPair`: `now = floor(Date.now()/1000)`; both
payloads carry the client id, roles and quota, with `iat = now` and
`exp = now + parseExpiry(expiry)`; a bad expiry string propagates as the
thrown error (the access expiry is parsed first).  Each payload is then
handed to `jwt.sign` together with the `expiresIn` option; since the
payload already carries `exp`, the first sign call itself throws. -/
def JWTService.generateTokenPair (svc : JWTService) (clientId : String)
    (roles : List String) (quotaPerMinute : Nat) (nowMs : Nat) :
    Except String TokenPair :=
  let now := nowMs / 1000
  match JWTService.parseExpiry svc.accessTokenExpiry with
  | .error e => .error e
  | .ok accessSecs =>
    match JWTService.parseExpiry svc.refreshTokenExpiry with
    | .error e => .error e
    | .ok refreshSecs =>
      match jwtSign
          { sub := clientId, roles := roles,
            quotaPerMinute := quotaPerMinute,
            iat := now, exp := now + accessSecs } svc.privateKey true with
      | .error e => .error e
      | .ok accessToken =>
        match jwtSign
            { sub := clientId, roles := roles,
              quotaPerMinute := quotaPerMinute,
              iat := now, exp := now + refreshSecs } svc.privateKey true with
        | .error e => .error e
        | .ok refreshToken =>
          .ok { accessToken := accessToken, refreshToken := refreshToken }

/-- The three error messages `JWTService.verifyToken` can throw. -/
inductive VerifyError where
  | tokenExpired
  | invalidToken
  | verificationFailed
  deriving DecidableEq, Repr

/-- `JWTService.verifyToken`: calls `jwt.verify` and re-throws
`TokenExpiredError` as 'Token expired', any other `JsonWebTokenError`
(malformed token or failed signature alike) as 'Invalid token', and
anything else as 'Token verification failed'. -/
def JWTService.verifyToken (svc : JWTService) (token : Token)
    (nowSec : Nat) : Except VerifyError JWTPayload :=
  match jwtLibVerify token svc.publicKey nowSec with
  | .ok p => .ok p
  | .error .tokenExpiredError => .error .tokenExpired
  | .error .jsonWebTokenError => .error .invalidToken

/-! ## Authentication middleware wrapper
(src/middleware/authentication.ts, `AuthenticationMiddleware.verifyToken`)
-/

/-- The `user` record the middleware attaches to the request. -/
structure AuthUser where
  id : String
  roles : List String
  quotaPerMinute : Nat
  deriving DecidableEq, Repr

/-- The `AuthenticationError` the middleware throws: a message and a
machine-readable code. -/
structure AuthenticationError where
  message : String
  code : String
  deriving DecidableEq, Repr

def msgTokenExpired : String := "Token expired"
def msgInvalidToken : String := "Invalid token"
def msgVerificationFailed : String := "Token verification failed"
def codeInvalidToken : String := "INVALID_TOKEN"

/-- Message text of each `JWTService.verifyToken` error. -/
def VerifyError.message : VerifyError → String
  | .tokenExpired => msgTokenExpired
  | .invalidToken => msgInvalidToken
  | .verificationFailed => msgVerificationFailed

/-- `AuthenticationMiddleware.verifyToken`: on success projects the
payload to the request user; on any `JWTService.verifyToken` failure it
throws `AuthenticationError(error.message, 'INVALID_TOKEN')` — the same
code for every failure kind. -/
def AuthenticationMiddleware.verifyToken (svc : JWTService) (token : Token)
    (nowSec : Nat) : Except AuthenticationError AuthUser :=
  match JWTService.verifyToken svc token nowSec with
  | .ok p => .ok { id := p.sub, roles := p.roles,
                   quotaPerMinute := p.quotaPerMinute }
  | .error e => .error { message := e.message, code := codeInvalidToken }

/-! ## Rate-limit middleware (src/middleware/rateLimit.ts)

The window key `rate_limit:<client>:<windowStart>` is represented by the
pair (client key string, windowStart); the counter cache stores numbers.
`generateKey`'s result (client id or IP) is the `clientKey` parameter.
Header values are natural numbers; the source renders them as decimal
strings (and the reset header as the ISO date of the same millisecond
value), renderings that are injective in the number. -/

/-- The rate-limit configuration fields the enforcement paths read:
window size in ms and the per-window request limit.  (The optional
`keyGenerator` is the `clientKey` parameter below; `message`,
`skipSuccessfulRequests` and `skipFailedRequests` do not affect the paths
modelled here.) -/
structure RateLimitConfig where
  windowMs : Nat
  maxRequests : Nat
  deriving DecidableEq, Repr

/-- The counter cache: `RedisCache` keyed by (client key, window start),
holding counts. -/
abbrev RLCache := RedisCache (String × Nat) Nat

/-- `RateLimitInfo`: the metadata attached to every response; `retryAfter`
is present only on rejection. -/
structure RateLimitInfo where
  limit : Nat
  remaining : Nat
  resetTime : Nat
  retryAfter : Option Nat
  deriving DecidableEq, Repr

/-- Window boundary: `floor(now / windowMs) * windowMs`. -/
def windowStartOf (cfg : RateLimitConfig) (now : Nat) : Nat :=
  now / cfg.windowMs * cfg.windowMs

/-- `RateLimitMiddleware.checkRateLimit`: read the current count for
(clientKey, windowStart) (a miss counts as 0); if it has reached
`maxRequests`, disallow with `retryAfter = ceil((resetTime - now)/1000)`
seconds and `remaining = 0`; otherwise allow with
`remaining = maxRequests - count - 1`.  Returns ((allowed, info), cache
after the read). -/
def RateLimitMiddleware.checkRateLimit (cfg : RateLimitConfig)
    (cache : RLCache) (clientKey : String) (now : Nat) :
    (Bool × RateLimitInfo) × RLCache :=
  let ws := windowStartOf cfg now
  let read := RedisCache.get cache now (clientKey, ws)
  let currentCount := read.1.getD 0
  if cfg.maxRequests ≤ currentCount then
    let resetTime := ws + cfg.windowMs
    let retryAfter := (resetTime - now + 999) / 1000
    ((false, { limit := cfg.maxRequests, remaining := 0,
               resetTime := resetTime, retryAfter := some retryAfter }),
     read.2)
  else
    ((true, { limit := cfg.maxRequests,
              remaining := cfg.maxRequests - currentCount - 1,
              resetTime := ws + cfg.windowMs, retryAfter := none }),
     read.2)

/-- `RateLimitMiddleware.incrementCount`: read the current count for
(clientKey, windowStart) again, add one, and store the sum with TTL equal
to the window duration — a read and a write in two separate store
calls. -/
def RateLimitMiddleware.incrementCount (cfg : RateLimitConfig)
    (cache : RLCache) (clientKey : String) (now : Nat) : RLCache :=
  let ws := windowStartOf cfg now
  let read := RedisCache.get cache now (clientKey, ws)
  let newCount := read.1.getD 0 + 1
  (RedisCache.set read.2 now (clientKey, ws) newCount (some cfg.windowMs)).2

def hdrLimit : String := "X-RateLimit-Limit"
def hdrRemaining : String := "X-RateLimit-Remaining"
def hdrReset : String := "X-RateLimit-Reset"
def hdrRetryAfter : String := "Retry-After"
def rateLimitMessage : String := "Rate limit exceeded"

/-- Outcome of one pass through the `rateLimit()` Express middleware:
the headers set on the response, the HTTP status when the middleware
responded itself (429 on rejection), the `RateLimitError` body
(message, retryAfter) on rejection, whether `next()` was called, and the
computed info. -/
structure MWResult where
  headers : List (String × Nat)
  status : Option Nat
  body : Option (String × Nat)
  nextCalled : Bool
  info : RateLimitInfo
  deriving DecidableEq, Repr

/-- Default used only for out-of-range list reads in statements. -/
def mwDefault : MWResult :=
  { headers := [], status := none, body := none, nextCalled := false,
    info := { limit := 0, remaining := 0, resetTime := 0,
              retryAfter := none } }

/-- `RateLimitMiddleware.rateLimit`, one request: run `checkRateLimit`,
set the three X-RateLimit headers from its info, then either respond 429
with `Retry-After` and a `RateLimitError` carrying `retryAfter || 0`, or
increment the counter and call `next()`.  (`RedisCache.get`/`set`
swallow their own store errors, so the middleware's catch-all — which
logs and calls `next()` — is not reachable through the store.) -/
def RateLimitMiddleware.rateLimit (cfg : RateLimitConfig)
    (cache : RLCache) (clientKey : String) (now : Nat) :
    MWResult × RLCache :=
  let checked := RateLimitMiddleware.checkRateLimit cfg cache clientKey now
  let allowed := checked.1.1
  let info := checked.1.2
  let baseHeaders := [(hdrLimit, info.limit), (hdrRemaining, info.remaining),
                      (hdrReset, info.resetTime)]
  if allowed then
    ({ headers := baseHeaders, status := none, body := none,
       nextCalled := true, info := info },
     RateLimitMiddleware.incrementCount cfg checked.2 clientKey now)
  else
    ({ headers := baseHeaders ++ [(hdrRetryAfter, info.retryAfter.getD 0)],
       status := some 429,
       body := some (rateLimitMessage, info.retryAfter.getD 0),
       nextCalled := false, info := info },
     checked.2)

/-- Sequential processing of a list of requests (their arrival times)
through the middleware for one client. -/
def runRateLimit (cfg : RateLimitConfig) (clientKey : String) :
    RLCache → List Nat → List MWResult × RLCache
  | cache, [] => ([], cache)
  | cache, t :: ts =>
    let step := RateLimitMiddleware.rateLimit cfg cache clientKey t
    let rest := runRateLimit cfg clientKey step.2 ts
    (step.1 :: rest.1, rest.2)

/-! ## Interleaving model of `incrementCount` (src/middleware/rateLimit.ts)

Within one fixed window and with the store reachable, an
`incrementCount` call interacts with the store exactly twice: an awaited
`cache.get` of the window key, then an awaited `cache.set` of the read
count plus one.  Each store call is atomic at the store, but the pair is
not; the model below runs two such calls for the same client's window
key under an arbitrary interleaving of their store calls.  `counter` is
the value stored under the shared window key (none = absent). -/

/-- One in-flight `incrementCount` call: program counter (0 = about to
`get`, 1 = about to `set`, 2 = done) and the count it has read. -/
structure IncTask where
  pc : Nat
  localCount : Nat
  deriving DecidableEq, Repr

/-- An `incrementCount` call that has not yet issued its `get`. -/
def IncTask.start : IncTask := { pc := 0, localCount := 0 }

/-- Execute the next store call of one `incrementCount` task: the `get`
reads the counter (a miss reads 0); the `set` writes the read count plus
one. -/
def incStep (counter : Option Nat) (task : IncTask) :
    Option Nat × IncTask :=
  match task.pc with
  | 0 => (counter, { pc := 1, localCount := counter.getD 0 })
  | 1 => (some (task.localCount + 1), { task with pc := 2 })
  | _ => (counter, task)

/-- Two concurrent `incrementCount` calls for the same client window,
plus the shared stored counter. -/
structure IncSystem where
  counter : Option Nat
  taskA : IncTask
  taskB : IncTask
  deriving DecidableEq, Repr

/-- Run one store call of task A (`true`) or task B (`false`). -/
def schedStep (sys : IncSystem) (pickA : Bool) : IncSystem :=
  if pickA then
    let r := incStep sys.counter sys.taskA
    { sys with counter := r.1, taskA := r.2 }
  else
    let r := incStep sys.counter sys.taskB
    { sys with counter := r.1, taskB := r.2 }

/-- Run a schedule: the list says whose store call goes next. -/
def runSched (sys : IncSystem) : List Bool → IncSystem
  | [] => sys
  | b :: bs => runSched (schedStep sys b) bs

/-! ## Shared concrete inputs for witnesses and counterexamples -/

def kW : String := "pool-x"
def vW : String := "value"
def clientIdW : String := "client-1"
def secretW : String := "secret-key"
def clientNameW : String := "Acme"

/-! ## Claims about the cache TTL (C8, C10) -/

/-- C10: for a caller-supplied ttl in milliseconds, the stored expiry is
floor(ttl/1000) seconds; a ttl of exactly 0 is silently replaced by the
300000 ms default; a ttl strictly between 0 and 1000 truncates to a
zero-second SETEX, which fails, so the write stores nothing and produces
no retrievable entry. -/
theorem set_ttl_semantics (c : RedisCache String String) (now : Nat)
    (k v : String) (t : Nat)
    (hreach : c.unreachable = false) (hdef : c.defaultTTL = 300000) :
    (1000 ≤ t →
      RedisCache.set c now k v (some t) =
        (true, { c with
                 store := insertStore c.store k ⟨v, now + t / 1000 * 1000⟩ }))
    ∧ (RedisCache.set c now k v (some 0) =
        (true, { c with
                 store := insertStore c.store k ⟨v, now + 300000⟩ }))
    ∧ (0 < t → t < 1000 →
        RedisCache.set c now k v (some t) = (false, c.addLog .cacheSetError)
        ∧ (lookupStore c.store k = none →
            ∀ t', (RedisCache.get (RedisCache.set c now k v (some t)).2 t' k).1
              = none)) := by
  refine ⟨?_, ?_, ?_⟩
  · intro ht
    have ht0 : ¬ t = 0 := by omega
    have hsecs : ¬ t / 1000 = 0 := by
      have h1 : 1 ≤ t / 1000 := (Nat.one_le_div_iff (by norm_num)).mpr ht
      omega
    simp [RedisCache.set, hreach, ht0, hsecs]
  · simp [RedisCache.set, hreach, hdef]
  · intro ht0 ht
    have hsecs : t / 1000 = 0 := Nat.div_eq_of_lt ht
    have ht0' : ¬ t = 0 := by omega
    refine ⟨by simp [RedisCache.set, hreach, ht0', hsecs], ?_⟩
    intro hnone t'
    simp [RedisCache.set, hreach, ht0', hsecs, RedisCache.addLog,
          RedisCache.get, hnone]

/-- Witness for C10 at concrete inputs: ttl 1500 stores a 1-second
expiry, ttl 0 stores the 300-second default, ttl 500 stores nothing and a
later read misses. -/
theorem set_ttl_semantics_witness :
    (RedisCache.set (RedisCache.new String String) 0 kW vW (some 1500)).2.store
      = [(kW, { value := vW, expiresAt := 1000 })]
    ∧ (RedisCache.set (RedisCache.new String String) 0 kW vW (some 0)).2.store
      = [(kW, { value := vW, expiresAt := 300000 })]
    ∧ (RedisCache.set (RedisCache.new String String) 0 kW vW (some 500)).1 = false
    ∧ (RedisCache.get
        (RedisCache.set (RedisCache.new String String) 0 kW vW (some 500)).2
        700 kW).1 = none := by
  have h := set_ttl_semantics (RedisCache.new String String) 0 kW vW 1500 rfl rfl
  have h5 := set_ttl_semantics (RedisCache.new String String) 0 kW vW 500 rfl rfl
  have h1 := h.1 (by norm_num)
  have h2 := h.2.1
  have h3 := (h5.2.2 (by norm_num) (by norm_num)).1
  have h4 := (h5.2.2 (by norm_num) (by norm_num)).2 rfl 700
  refine ⟨?_, ?_, ?_, h4⟩
  · rw [h1]
    rfl
  · rw [h2]
    rfl
  · rw [h3]

/-- C8 counterexample: the caller supplies ttl = 0 ms, yet the entry is
stored with the 300000 ms default expiry instead of the caller's choice. -/
theorem set_zero_ttl_default_cex :
    (RedisCache.set (RedisCache.new String String) 0 kW vW (some 0)).1 = true
    ∧ (RedisCache.set (RedisCache.new String String) 0 kW vW (some 0)).2.store
        = [(kW, { value := vW, expiresAt := 300000 })]
    ∧ ¬ (300000 : Nat) = 0 := by
  refine ⟨rfl, ?_, by norm_num⟩
  have h := (set_ttl_semantics (RedisCache.new String String) 0 kW vW 0 rfl rfl).2.1
  rw [h]
  rfl

/-- C8 amended: a write whose caller-supplied ttl is at least 1000 ms is
stored with exactly floor(ttl/1000) seconds of the caller's ttl; but a
caller-supplied ttl of 0, like an absent ttl, falls back to the 300000 ms
default in place of the caller's choice. -/
theorem set_positive_ttl_exact_floor (c : RedisCache String String)
    (now : Nat) (k v : String) (t : Nat)
    (hreach : c.unreachable = false) (hdef : c.defaultTTL = 300000)
    (ht : 1000 ≤ t) :
    RedisCache.set c now k v (some t) =
      (true, { c with
               store := insertStore c.store k ⟨v, now + t / 1000 * 1000⟩ })
    ∧ RedisCache.set c now k v (some 0) =
        RedisCache.set c now k v none := by
  refine ⟨(set_ttl_semantics c now k v t hreach hdef).1 ht, ?_⟩
  simp [RedisCache.set, hreach]

/-- Witness for the amended C8 at concrete inputs. -/
theorem set_positive_ttl_exact_floor_witness :
    RedisCache.set (RedisCache.new String String) 0 kW vW (some 2700) =
      (true, { RedisCache.new String String with
               store := [(kW, { value := vW, expiresAt := 2000 })] })
    ∧ RedisCache.set (RedisCache.new String String) 0 kW vW (some 0) =
        RedisCache.set (RedisCache.new String String) 0 kW vW none := by
  have h := set_positive_ttl_exact_floor (RedisCache.new String String) 0 kW vW
    2700 rfl rfl (by norm_num)
  exact ⟨h.1, h.2⟩

/-! ## Claims about the credential service (C6, C7) -/

/-- C6: `authenticateClient` returns null when every stored client either
has a different credential hash or is SUSPENDED (the suspended case in
particular); any returned client is ACTIVE, matches the presented
credential's hash, and has its `lastUsedAt` updated to now; and when an
ACTIVE matching client exists, one is returned. -/
theorem authenticateClient_spec
    (clients : List (String × ClientApplication)) (key : String) (now : Nat) :
    ((∀ p ∈ clients,
        ¬ p.2.apiKey = hashAPIKey key ∨ p.2.status = ClientStatus.suspended) →
      (APIKeyService.authenticateClient clients key now).1 = none)
    ∧ (∀ c, (APIKeyService.authenticateClient clients key now).1 = some c →
        c.status = ClientStatus.active ∧ c.apiKey = hashAPIKey key ∧
        c.lastUsedAt = some now)
    ∧ ((∃ p ∈ clients,
          p.2.apiKey = hashAPIKey key ∧ p.2.status = ClientStatus.active) →
        ∃ c, (APIKeyService.authenticateClient clients key now).1 = some c) := by
  induction clients with
  | nil => simp [APIKeyService.authenticateClient]
  | cons hd tl ih =>
    obtain ⟨i, c⟩ := hd
    by_cases hc : c.apiKey = hashAPIKey key ∧ c.status = ClientStatus.active
    · refine ⟨?_, ?_, ?_⟩
      · intro hall
        rcases hall (i, c) (by simp) with h | h
        · exact absurd hc.1 h
        · rw [hc.2] at h; cases h
      · intro c' heq
        simp only [APIKeyService.authenticateClient, if_pos hc] at heq
        cases heq
        exact ⟨hc.2, hc.1, rfl⟩
      · intro _
        exact ⟨{ c with lastUsedAt := some now },
          by simp only [APIKeyService.authenticateClient, if_pos hc]⟩
    · simp only [APIKeyService.authenticateClient, if_neg hc]
      refine ⟨?_, ?_, ?_⟩
      · intro hall
        exact ih.1 (fun p hp => hall p (List.mem_cons_of_mem _ hp))
      · exact ih.2.1
      · intro hex
        rcases hex with ⟨p, hp, hmatch⟩
        rcases List.mem_cons.mp hp with rfl | hp'
        · exact absurd hmatch hc
        · exact ih.2.2 ⟨p, hp', hmatch⟩

/-- A stored SUSPENDED client whose hash matches `secretW`, for the C6
witness. -/
def suspClient : ClientApplication :=
  { id := clientIdW, name := clientNameW, apiKey := hashAPIKey secretW,
    apiKeyPlaintext := none, tier := .free, quotaPerMinute := 100,
    roles := [roleRead], status := .suspended, createdAt := 0,
    createdBy := none, lastUsedAt := none }

/-- Witness for C6: the correct credential of a SUSPENDED client
authenticates to null, and the same client once ACTIVE authenticates
successfully. -/
theorem authenticateClient_spec_witness :
    (APIKeyService.authenticateClient [(clientIdW, suspClient)] secretW 5).1
      = none
    ∧ ∃ c, (APIKeyService.authenticateClient
        [(clientIdW, { suspClient with status := ClientStatus.active })]
        secretW 5).1 = some c := by
  refine ⟨(authenticateClient_spec [(clientIdW, suspClient)] secretW 5).1 ?_,
    (authenticateClient_spec
      [(clientIdW, { suspClient with status := ClientStatus.active })]
      secretW 5).2.2 ?_⟩
  · decide
  · decide

/-- C7: evaluation at the failing input.  After `createClient`, the
plaintext credential remains persisted in the client store:  `getClient`
returns it and `listClients` returns it, contradicting the stated
invariant (and the source's own comments and data-model notes, which say
the plaintext is shown once and then nulled). -/
theorem plaintext_persisted_after_creation :
    ((APIKeyService.getClient
        (APIKeyService.createClient [] clientIdW secretW
          { name := clientNameW, tier := .free, createdBy := none } 0).2
        clientIdW).map ClientApplication.apiKeyPlaintext)
      = some (some secretW)
    ∧ ((APIKeyService.listClients
        (APIKeyService.createClient [] clientIdW secretW
          { name := clientNameW, tier := .free, createdBy := none } 0).2).map
          ClientApplication.apiKeyPlaintext)
      = [some secretW] := by
  refine ⟨?_, ?_⟩ <;> rfl

/-! ## Claims about token verification and issuance (C2, C3) -/

/-- The JWT service used in concrete token scenarios. -/
def svcW : JWTService :=
  JWTService.new 1 defaultAccessExpiry defaultRefreshExpiry

/-- A payload that expires at second 10. -/
def payloadW : JWTPayload :=
  { sub := clientIdW, roles := [roleRead], quotaPerMinute := 100,
    iat := 0, exp := 10 }

def rawW : String := "not-a-jwt"

/-- C2 counterexample: (i) a token that is past its expiry but carries a
bad signature verifies to `invalidToken`, not the expired kind, so
verification after `expiresAt` does not always yield the expired kind;
(ii) a malformed token and a badly-signed token produce the identical
`invalidToken` error, so malformed and invalid-signature are not
distinguishable; (iii) at `now = expiresAt` exactly — where
`now > expiresAt` is false — verification already fails with the expired
kind; (iv) the authentication middleware tags even the expired failure
with code INVALID_TOKEN. -/
theorem verify_error_kinds_cex :
    (JWTService.verifyToken svcW (Token.signed payloadW 999) 20
        = Except.error VerifyError.invalidToken
      ∧ payloadW.exp < 20)
    ∧ JWTService.verifyToken svcW (Token.malformed rawW) 20
        = JWTService.verifyToken svcW (Token.signed payloadW 999) 20
    ∧ (JWTService.verifyToken svcW (Token.signed payloadW 1) 10
        = Except.error VerifyError.tokenExpired
      ∧ ¬ payloadW.exp < 10)
    ∧ AuthenticationMiddleware.verifyToken svcW (Token.signed payloadW 1) 20
        = Except.error { message := msgTokenExpired,
                         code := codeInvalidToken } := by
  exact ⟨⟨rfl, by decide⟩, rfl, ⟨rfl, by decide⟩, rfl⟩

/-- C2 amended: `verifyToken` fails with the expired kind exactly when
the token parses, its signature validates against the service's key, and
`expiresAt ≤ now`; it fails with `invalidToken` exactly when the token is
malformed or its signature does not validate — those two causes map to
one indistinguishable kind; the third message, 'Token verification
failed', is unreachable. -/
theorem verify_two_error_kinds (svc : JWTService) (token : Token)
    (nowSec : Nat) :
    (JWTService.verifyToken svc token nowSec
        = Except.error VerifyError.tokenExpired ↔
      ∃ p, token = Token.signed p svc.publicKey ∧ p.exp ≤ nowSec)
    ∧ (JWTService.verifyToken svc token nowSec
        = Except.error VerifyError.invalidToken ↔
      ((∃ raw, token = Token.malformed raw) ∨
        ∃ p k, token = Token.signed p k ∧ ¬ k = svc.publicKey))
    ∧ ¬ JWTService.verifyToken svc token nowSec
        = Except.error VerifyError.verificationFailed := by
  cases token with
  | malformed raw =>
    simp [JWTService.verifyToken, jwtLibVerify]
  | signed p k =>
    by_cases hk : k = svc.publicKey
    · subst hk
      by_cases he : p.exp ≤ nowSec
      · simp [JWTService.verifyToken, jwtLibVerify, he]
      · simp [JWTService.verifyToken, jwtLibVerify, he]
    · simp [JWTService.verifyToken, jwtLibVerify, hk]
      exact ⟨p, k, ⟨rfl, rfl⟩, hk⟩

/-- C3: evaluation at the failing input.  Issuing a token pair for an
identity with the default expiry configuration does not return a pair at
all: the source hands `jwt.sign` a payload that already carries the
`exp` claim together with the `expiresIn` option, which the library
rejects, so `issueTokenPair` throws on every call and an immediate
verify of a returned access token never happens — contradicting the
claimed issue-then-verify round trip. -/
theorem issueTokenPair_always_throws :
    JWTService.generateTokenPair
        (JWTService.new 1 defaultAccessExpiry defaultRefreshExpiry)
        clientIdW [roleRead] 100 0
      = Except.error badExpiresInMsg := rfl

/-- The sign-time rejection is input-independent: `generateTokenPair`
never returns a pair, whatever the key, expiry configuration, identity
or time — on every input it throws either the expiry-format error or the
sign-time `expiresIn` error. -/
theorem generateTokenPair_never_succeeds (svc : JWTService)
    (clientId : String) (roles : List String)
    (quotaPerMinute nowMs : Nat) (pair : TokenPair) :
    ¬ JWTService.generateTokenPair svc clientId roles quotaPerMinute nowMs
        = Except.ok pair := by
  intro h
  simp only [JWTService.generateTokenPair] at h
  split at h
  · cases h
  · split at h
    · cases h
    · simp [jwtSign] at h

/-! ## Claims about the quota middleware (C4, C5, C9) -/

def ckW : String := "rate_limit:client-1"

/-- C9 counterexample: two concurrent `incrementCount` calls for the same
client window, interleaved read-read-write-write, both complete yet leave
the stored count at 1 — an increment is lost, so the window count is not
monotonic without lost increments under concurrency. -/
theorem concurrent_increment_lost_update :
    (runSched { counter := none, taskA := IncTask.start, taskB := IncTask.start }
        [true, false, true, false]).taskA.pc = 2
    ∧ (runSched { counter := none, taskA := IncTask.start, taskB := IncTask.start }
        [true, false, true, false]).taskB.pc = 2
    ∧ (runSched { counter := none, taskA := IncTask.start, taskB := IncTask.start }
        [true, false, true, false]).counter = some 1
    ∧ ¬ (runSched { counter := none, taskA := IncTask.start, taskB := IncTask.start }
        [true, false, true, false]).counter = some 2 := by
  decide

/-- C9 amended: the check-and-increment is issued as a read followed by a
separate write from the gateway process, not as a store-native atomic
increment: run without interference the two store calls of each
`incrementCount` raise the count by one each (two sequential calls end at
count + 2), but the interleaving in which both calls read before either
writes ends at count + 1, losing an increment. -/
theorem increment_read_then_write_semantics (k : Option Nat) :
    (runSched { counter := k, taskA := IncTask.start, taskB := IncTask.start }
        [true, true, false, false]).counter = some (k.getD 0 + 1 + 1)
    ∧ (runSched { counter := k, taskA := IncTask.start, taskB := IncTask.start }
        [true, false, true, false]).counter = some (k.getD 0 + 1) := by
  cases k <;> simp [runSched, schedStep, incStep, IncTask.start]

/-- C4: when the counter store is unreachable, every store interaction
during the quota check fails internally; the middleware still calls
`next()` (fails open, given a positive configured limit: the failed read
counts as zero), and the failure is logged as a cache-error event rather
than swallowed. -/
theorem rateLimit_fails_open (cfg : RateLimitConfig) (cache : RLCache)
    (clientKey : String) (now : Nat)
    (hun : cache.unreachable = true) (hN : 1 ≤ cfg.maxRequests) :
    (RateLimitMiddleware.rateLimit cfg cache clientKey now).1.nextCalled = true
    ∧ (RateLimitMiddleware.rateLimit cfg cache clientKey now).1.status = none
    ∧ LogEvent.cacheGetError ∈
        (RateLimitMiddleware.rateLimit cfg cache clientKey now).2.log := by
  have hcond : ¬ cfg.maxRequests ≤ (0 : Nat) := by omega
  refine ⟨?_, ?_, ?_⟩ <;>
    simp [RateLimitMiddleware.rateLimit, RateLimitMiddleware.checkRateLimit,
          RateLimitMiddleware.incrementCount, RedisCache.get, RedisCache.set,
          RedisCache.addLog, hun, hcond]

/-- A counter store that is down, for the C4 witness. -/
def downCache : RLCache :=
  { defaultTTL := 300000, store := [], unreachable := true, log := [] }

/-- Witness for C4: with the store down and limit 100, the request at
time 0 proceeds and the cache-error log event is recorded. -/
theorem rateLimit_fails_open_witness :
    (RateLimitMiddleware.rateLimit { windowMs := 60000, maxRequests := 100 }
        downCache ckW 0).1.nextCalled = true
    ∧ (RateLimitMiddleware.rateLimit { windowMs := 60000, maxRequests := 100 }
        downCache ckW 0).1.status = none
    ∧ LogEvent.cacheGetError ∈
        (RateLimitMiddleware.rateLimit { windowMs := 60000, maxRequests := 100 }
          downCache ckW 0).2.log := by
  exact rateLimit_fails_open { windowMs := 60000, maxRequests := 100 }
    downCache ckW 0 rfl (by norm_num)

/-- C5: every response of the rate-limit middleware — allowed or
rejected, for any cache state including an unreachable store — carries
the limit, remaining and resetTime headers taken from its rate-limit
info, and a rejected response additionally carries the Retry-After header
and a 429 RateLimitError body with the same retryAfter. -/
theorem rateLimit_metadata_on_every_response (cfg : RateLimitConfig)
    (cache : RLCache) (clientKey : String) (now : Nat) :
    (hdrLimit,
        (RateLimitMiddleware.rateLimit cfg cache clientKey now).1.info.limit) ∈
      (RateLimitMiddleware.rateLimit cfg cache clientKey now).1.headers
    ∧ (hdrRemaining,
        (RateLimitMiddleware.rateLimit cfg cache clientKey now).1.info.remaining) ∈
      (RateLimitMiddleware.rateLimit cfg cache clientKey now).1.headers
    ∧ (hdrReset,
        (RateLimitMiddleware.rateLimit cfg cache clientKey now).1.info.resetTime) ∈
      (RateLimitMiddleware.rateLimit cfg cache clientKey now).1.headers
    ∧ ((RateLimitMiddleware.rateLimit cfg cache clientKey now).1.nextCalled = false →
        (hdrRetryAfter,
            (RateLimitMiddleware.rateLimit cfg cache clientKey
              now).1.info.retryAfter.getD 0) ∈
          (RateLimitMiddleware.rateLimit cfg cache clientKey now).1.headers
        ∧ (RateLimitMiddleware.rateLimit cfg cache clientKey now).1.status = some 429
        ∧ (RateLimitMiddleware.rateLimit cfg cache clientKey now).1.body =
            some (rateLimitMessage,
              (RateLimitMiddleware.rateLimit cfg cache clientKey
                now).1.info.retryAfter.getD 0)) := by
  by_cases hA : (RateLimitMiddleware.checkRateLimit cfg cache clientKey now).1.1
  · simp [RateLimitMiddleware.rateLimit, hA]
  · simp [RateLimitMiddleware.rateLimit, hA]

/-- A cache already at the limit for window 0 of `ckW`, for the C5
witness. -/
def fullCache : RLCache :=
  { defaultTTL := 300000, store := [((ckW, 0), { value := 1, expiresAt := 60000 })],
    unreachable := false, log := [] }

/-- Witness for C5: an allowed request carries the three rate-limit
headers, and a rejected request (limit 1 already consumed) additionally
carries Retry-After, a 429 status and the RateLimitError body. -/
theorem rateLimit_metadata_witness :
    (hdrLimit,
        (RateLimitMiddleware.rateLimit { windowMs := 60000, maxRequests := 100 }
          (RedisCache.new (String × Nat) Nat) ckW 0).1.info.limit) ∈
      (RateLimitMiddleware.rateLimit { windowMs := 60000, maxRequests := 100 }
        (RedisCache.new (String × Nat) Nat) ckW 0).1.headers
    ∧ (hdrRetryAfter,
        (RateLimitMiddleware.rateLimit { windowMs := 60000, maxRequests := 1 }
          fullCache ckW 30000).1.info.retryAfter.getD 0) ∈
      (RateLimitMiddleware.rateLimit { windowMs := 60000, maxRequests := 1 }
        fullCache ckW 30000).1.headers
    ∧ (RateLimitMiddleware.rateLimit { windowMs := 60000, maxRequests := 1 }
        fullCache ckW 30000).1.status = some 429 := by
  refine ⟨(rateLimit_metadata_on_every_response
      { windowMs := 60000, maxRequests := 100 }
      (RedisCache.new (String × Nat) Nat) ckW 0).1, ?_, ?_⟩
  · exact ((rateLimit_metadata_on_every_response
      { windowMs := 60000, maxRequests := 1 } fullCache ckW 30000).2.2.2
      (by decide)).1
  · exact ((rateLimit_metadata_on_every_response
      { windowMs := 60000, maxRequests := 1 } fullCache ckW 30000).2.2.2
      (by decide)).2.1

/-! ## C1: fixed-window quota enforcement -/

/-- A request at time `t` falls inside its fixed window
`[windowStartOf t, windowStartOf t + windowMs)`. -/
lemma windowStartOf_bounds (cfg : RateLimitConfig) (hw : 0 < cfg.windowMs)
    {t W : Nat} (h : windowStartOf cfg t = W) :
    W ≤ t ∧ t < W + cfg.windowMs := by
  subst h
  simp only [windowStartOf]
  refine ⟨Nat.div_mul_le_self t cfg.windowMs, ?_⟩
  have h1 := Nat.div_add_mod' t cfg.windowMs
  have h2 := Nat.mod_lt t hw
  calc t = t / cfg.windowMs * cfg.windowMs + t % cfg.windowMs := h1.symm
    _ < t / cfg.windowMs * cfg.windowMs + cfg.windowMs :=
        Nat.add_lt_add_left h2 _

/-- Counter-store invariant for one client inside window `W`: the store
is reachable and holds exactly this client's window counter — absent when
`k = 0`, otherwise a single entry with value `k` that does not expire
before the window ends. -/
def RLReady (cfg : RateLimitConfig) (clientKey : String) (W k : Nat)
    (c : RLCache) : Prop :=
  c.unreachable = false ∧
  ((k = 0 ∧ c.store = []) ∨
    (1 ≤ k ∧ ∃ e, W + cfg.windowMs ≤ e ∧
      c.store = [((clientKey, W), ⟨k, e⟩)]))

/-- Under the invariant, the window-key read inside the current window
returns the count `k` (a miss when `k = 0`). -/
lemma RLReady_get (cfg : RateLimitConfig) (clientKey : String)
    (W k : Nat) (c : RLCache) (now : Nat)
    (hinv : RLReady cfg clientKey W k c)
    (hnow : now < W + cfg.windowMs) :
    RedisCache.get c now (clientKey, W) =
      ((if k = 0 then none else some k), c) := by
  obtain ⟨hreach, hst⟩ := hinv
  rcases hst with ⟨hk0, hstore⟩ | ⟨hk1, e, he, hstore⟩
  · subst hk0
    simp [RedisCache.get, hreach, hstore, lookupStore]
  · have hk0 : ¬ k = 0 := by omega
    have hlt : now < e := by omega
    simp [RedisCache.get, hreach, hstore, lookupStore, hlt, hk0]

/-- One request inside window `W` while the count `k` is below the limit:
the middleware calls `next()` reporting `remaining = limit - k - 1`, and
the stored count becomes `k + 1` with a TTL reaching past the window's
end. -/
lemma rateLimit_step_allowed (cfg : RateLimitConfig) (clientKey : String)
    (W k : Nat) (c : RLCache) (now : Nat)
    (hw : 0 < cfg.windowMs) (hdvd : 1000 ∣ cfg.windowMs)
    (hinv : RLReady cfg clientKey W k c)
    (hnow : windowStartOf cfg now = W)
    (hk : k < cfg.maxRequests) :
    (RateLimitMiddleware.rateLimit cfg c clientKey now).1.nextCalled = true
    ∧ (RateLimitMiddleware.rateLimit cfg c clientKey now).1.status = none
    ∧ (RateLimitMiddleware.rateLimit cfg c clientKey now).1.info.remaining
        = cfg.maxRequests - k - 1
    ∧ RLReady cfg clientKey W (k + 1)
        (RateLimitMiddleware.rateLimit cfg c clientKey now).2 := by
  obtain ⟨hWle, hWlt⟩ := windowStartOf_bounds cfg hw hnow
  have hreach := hinv.1
  have hw0 : ¬ cfg.windowMs = 0 := by omega
  have hmOne : 1000 ≤ cfg.windowMs := by
    rcases hdvd with ⟨m, hm⟩
    rcases Nat.eq_zero_or_pos m with h0 | h1 <;> omega
  have hsecs : ¬ cfg.windowMs / 1000 = 0 := by
    have h1 : 1 ≤ cfg.windowMs / 1000 :=
      (Nat.one_le_div_iff (by norm_num)).mpr hmOne
    omega
  have hdm : cfg.windowMs / 1000 * 1000 = cfg.windowMs :=
    Nat.div_mul_cancel hdvd
  have hcount : ¬ cfg.maxRequests ≤ k := by omega
  have hget := RLReady_get cfg clientKey W k c now hinv hWlt
  have hgetD : ((if k = 0 then none else some k) : Option Nat).getD 0 = k := by
    split
    · rename_i h0
      rw [h0]
      rfl
    · rfl
  have hstore2 :
      insertStore c.store (clientKey, W)
          ⟨k + 1, now + cfg.windowMs / 1000 * 1000⟩
        = [((clientKey, W), ⟨k + 1, now + cfg.windowMs / 1000 * 1000⟩)] := by
    rcases hinv.2 with ⟨hk0, hstore⟩ | ⟨hk1, e, he, hstore⟩ <;>
      simp [insertStore, hstore]
  have hstep : RateLimitMiddleware.rateLimit cfg c clientKey now =
      ({ headers := [(hdrLimit, cfg.maxRequests),
                     (hdrRemaining, cfg.maxRequests - k - 1),
                     (hdrReset, W + cfg.windowMs)],
         status := none, body := none, nextCalled := true,
         info := { limit := cfg.maxRequests,
                   remaining := cfg.maxRequests - k - 1,
                   resetTime := W + cfg.windowMs, retryAfter := none } },
       { c with store := [((clientKey, W),
           ⟨k + 1, now + cfg.windowMs / 1000 * 1000⟩)] }) := by
    simp only [RateLimitMiddleware.rateLimit,
      RateLimitMiddleware.checkRateLimit,
      RateLimitMiddleware.incrementCount, hnow, hget, hgetD,
      Option.getD_some, if_neg hcount, if_true,
      RedisCache.set, hreach, Bool.false_eq_true, if_false,
      if_neg hw0, if_neg hsecs, hstore2]
  rw [hstep]
  refine ⟨rfl, rfl, rfl, hreach, Or.inr ⟨by omega,
    now + cfg.windowMs / 1000 * 1000, by omega, rfl⟩⟩

/-- One request inside window `W` once the count has reached the limit:
the middleware responds 429 with a positive `retryAfter` and leaves the
store unchanged. -/
lemma rateLimit_step_rejected (cfg : RateLimitConfig) (clientKey : String)
    (W k : Nat) (c : RLCache) (now : Nat)
    (hw : 0 < cfg.windowMs)
    (hinv : RLReady cfg clientKey W k c)
    (hnow : windowStartOf cfg now = W)
    (hk : cfg.maxRequests ≤ k) :
    (RateLimitMiddleware.rateLimit cfg c clientKey now).1.status = some 429
    ∧ (RateLimitMiddleware.rateLimit cfg c clientKey now).1.nextCalled = false
    ∧ 1 ≤ (RateLimitMiddleware.rateLimit cfg c clientKey
        now).1.info.retryAfter.getD 0
    ∧ (RateLimitMiddleware.rateLimit cfg c clientKey now).2 = c := by
  obtain ⟨hWle, hWlt⟩ := windowStartOf_bounds cfg hw hnow
  have hget := RLReady_get cfg clientKey W k c now hinv hWlt
  have hgetD : ((if k = 0 then none else some k) : Option Nat).getD 0 = k := by
    split
    · rename_i h0
      rw [h0]
      rfl
    · rfl
  have hretry : 1 ≤ (W + cfg.windowMs - now + 999) / 1000 := by omega
  have hstep : RateLimitMiddleware.rateLimit cfg c clientKey now =
      ({ headers := [(hdrLimit, cfg.maxRequests), (hdrRemaining, 0),
                     (hdrReset, W + cfg.windowMs),
                     (hdrRetryAfter, (W + cfg.windowMs - now + 999) / 1000)],
         status := some 429,
         body := some (rateLimitMessage,
           (W + cfg.windowMs - now + 999) / 1000),
         nextCalled := false,
         info := { limit := cfg.maxRequests, remaining := 0,
                   resetTime := W + cfg.windowMs,
                   retryAfter := some ((W + cfg.windowMs - now + 999) / 1000) } },
       c) := by
    simp only [RateLimitMiddleware.rateLimit,
      RateLimitMiddleware.checkRateLimit, hnow, hget, hgetD,
      if_pos hk, Bool.false_eq_true, if_false]
    rfl
  rw [hstep]
  exact ⟨rfl, rfl, hretry, rfl⟩

/-- The first request of the next window: the old window's counter is
keyed under the previous window start, so the read misses and the request
is allowed again. -/
lemma rateLimit_step_next_window (cfg : RateLimitConfig) (clientKey : String)
    (W k : Nat) (c : RLCache) (now : Nat)
    (hw : 0 < cfg.windowMs)
    (hinv : RLReady cfg clientKey W k c)
    (hnow : windowStartOf cfg now = W + cfg.windowMs)
    (hN : 1 ≤ cfg.maxRequests) :
    (RateLimitMiddleware.rateLimit cfg c clientKey now).1.nextCalled = true := by
  have hreach := hinv.1
  have hne : ¬ ((clientKey, W) = (clientKey, W + cfg.windowMs)) := by
    simp only [Prod.mk.injEq, not_and]
    intro _
    omega
  have hget : RedisCache.get c now (clientKey, W + cfg.windowMs) = (none, c) := by
    rcases hinv.2 with ⟨hk0, hstore⟩ | ⟨hk1, e, he, hstore⟩ <;>
      simp [RedisCache.get, hreach, hstore, lookupStore, hne]
  have hcount : ¬ cfg.maxRequests ≤ (0 : Nat) := by omega
  simp [RateLimitMiddleware.rateLimit, RateLimitMiddleware.checkRateLimit,
    hnow, hget, hcount]

/-- Unfolding of `runRateLimit` on a first request. -/
lemma runRateLimit_cons (cfg : RateLimitConfig) (ck : String) (c : RLCache)
    (t : Nat) (ts : List Nat) :
    runRateLimit cfg ck c (t :: ts) =
      ((RateLimitMiddleware.rateLimit cfg c ck t).1 ::
        (runRateLimit cfg ck (RateLimitMiddleware.rateLimit cfg c ck t).2 ts).1,
       (runRateLimit cfg ck (RateLimitMiddleware.rateLimit cfg c ck t).2 ts).2) :=
  rfl

/-- Requests inside one window, from any reachable single-counter state:
each request with pre-count below the limit is passed through with
`remaining = limit - count - 1`; each request at or beyond the limit is
rejected with a positive retry delay; the final state again satisfies the
invariant with the count capped at the limit. -/
lemma runRateLimit_in_window (cfg : RateLimitConfig) (clientKey : String)
    (W : Nat) (hw : 0 < cfg.windowMs) (hdvd : 1000 ∣ cfg.windowMs) :
    ∀ (ts : List Nat) (k : Nat) (c : RLCache),
      k ≤ cfg.maxRequests →
      RLReady cfg clientKey W k c →
      (∀ t ∈ ts, windowStartOf cfg t = W) →
      (runRateLimit cfg clientKey c ts).1.length = ts.length
      ∧ (∀ i, i < ts.length → k + i < cfg.maxRequests →
          ((runRateLimit cfg clientKey c ts).1.getD i mwDefault).nextCalled
              = true
          ∧ ((runRateLimit cfg clientKey c ts).1.getD i mwDefault).info.remaining
              = cfg.maxRequests - (k + i) - 1)
      ∧ (∀ i, i < ts.length → cfg.maxRequests ≤ k + i →
          ((runRateLimit cfg clientKey c ts).1.getD i mwDefault).status
              = some 429
          ∧ 1 ≤ ((runRateLimit cfg clientKey c
              ts).1.getD i mwDefault).info.retryAfter.getD 0)
      ∧ RLReady cfg clientKey W (min (k + ts.length) cfg.maxRequests)
          (runRateLimit cfg clientKey c ts).2 := by
  intro ts
  induction ts with
  | nil =>
    intro k c hkN hinv hts
    refine ⟨rfl, ?_, ?_, ?_⟩
    · intro i hi
      simp only [List.length_nil] at hi
      omega
    · intro i hi
      simp only [List.length_nil] at hi
      omega
    · have hmin : min (k + ([] : List Nat).length) cfg.maxRequests = k := by
        simp only [List.length_nil]
        omega
      rw [hmin]
      exact hinv
  | cons t ts ih =>
    intro k c hkN hinv hts
    have htW : windowStartOf cfg t = W := hts t (List.mem_cons_self _ _)
    have htsT : ∀ x ∈ ts, windowStartOf cfg x = W :=
      fun x hx => hts x (List.mem_cons_of_mem _ hx)
    by_cases hk : k < cfg.maxRequests
    · have hstep := rateLimit_step_allowed cfg clientKey W k c t hw hdvd
        hinv htW hk
      have hrest := ih (k + 1)
        (RateLimitMiddleware.rateLimit cfg c clientKey t).2
        (by omega) hstep.2.2.2 htsT
      rw [runRateLimit_cons]
      refine ⟨?_, ?_, ?_, ?_⟩
      · simp [hrest.1]
      · intro i hi hik
        match i with
        | 0 =>
          simp only [List.getD_cons_zero]
          exact ⟨hstep.1, by rw [hstep.2.2.1]; omega⟩
        | j + 1 =>
          simp only [List.getD_cons_succ]
          have h1 := (hrest.2.1 j (by simpa using hi) (by omega)).1
          have h2 := (hrest.2.1 j (by simpa using hi) (by omega)).2
          have he : k + 1 + j = k + (j + 1) := by omega
          rw [he] at h2
          exact ⟨h1, h2⟩
      · intro i hi hik
        match i with
        | 0 => omega
        | j + 1 =>
          simp only [List.getD_cons_succ]
          exact hrest.2.2.1 j (by simpa using hi) (by omega)
      · have he : min (k + 1 + ts.length) cfg.maxRequests
            = min (k + (t :: ts).length) cfg.maxRequests := by
          simp only [List.length_cons]
          omega
        rw [← he]
        exact hrest.2.2.2
    · have hkk : cfg.maxRequests ≤ k := by omega
      have hstep := rateLimit_step_rejected cfg clientKey W k c t hw
        hinv htW hkk
      have hrest := ih k (RateLimitMiddleware.rateLimit cfg c clientKey t).2
        (by omega) (by rw [hstep.2.2.2]; exact hinv) htsT
      rw [runRateLimit_cons]
      refine ⟨?_, ?_, ?_, ?_⟩
      · simp [hrest.1]
      · intro i hi hik
        match i with
        | 0 => omega
        | j + 1 => omega
      · intro i hi hik
        match i with
        | 0 =>
          simp only [List.getD_cons_zero]
          exact ⟨hstep.1, hstep.2.2.1⟩
        | j + 1 =>
          simp only [List.getD_cons_succ]
          exact hrest.2.2.1 j (by simpa using hi) (by omega)
      · have he : min (k + ts.length) cfg.maxRequests
            = min (k + (t :: ts).length) cfg.maxRequests := by
          simp only [List.length_cons]
          omega
        rw [← he]
        exact hrest.2.2.2

/-- `runRateLimit` distributes over list append. -/
lemma runRateLimit_append (cfg : RateLimitConfig) (ck : String) :
    ∀ (ts1 ts2 : List Nat) (c : RLCache),
      runRateLimit cfg ck c (ts1 ++ ts2) =
        ((runRateLimit cfg ck c ts1).1 ++
          (runRateLimit cfg ck (runRateLimit cfg ck c ts1).2 ts2).1,
         (runRateLimit cfg ck (runRateLimit cfg ck c ts1).2 ts2).2) := by
  intro ts1
  induction ts1 with
  | nil => intro ts2 c; rfl
  | cons t ts ih =>
    intro ts2 c
    simp only [List.cons_append, runRateLimit_cons, ih, List.append_eq]

/-- A middleware session for one client starting from the constructor's
empty, reachable counter store. -/
def rlSession (cfg : RateLimitConfig) (clientKey : String)
    (ts : List Nat) : List MWResult × RLCache :=
  runRateLimit cfg clientKey (RedisCache.new (String × Nat) Nat) ts

/-- Unfolding of `runRateLimit` on an empty request list. -/
lemma runRateLimit_nil (cfg : RateLimitConfig) (ck : String) (c : RLCache) :
    runRateLimit cfg ck c [] = ([], c) := rfl

/-- C1: for a client whose resolved limit is N ≥ 1, with a fixed window
of a whole number of seconds, starting from an empty counter store: for
any requests inside one window, the request with prior count i < N is
passed through reporting `remaining = N - i - 1` (so exactly the first N
are allowed), the request with prior count N — the (N+1)th — is rejected
with status 429 and `retryAfter ≥ 1`, and the first request falling in
the next window is allowed again. -/
theorem quota_window_enforcement (cfg : RateLimitConfig) (clientKey : String)
    (ts : List Nat) (tNext W : Nat)
    (hw : 0 < cfg.windowMs) (hdvd : 1000 ∣ cfg.windowMs)
    (hN : 1 ≤ cfg.maxRequests)
    (hts : ∀ t ∈ ts, windowStartOf cfg t = W)
    (hnext : windowStartOf cfg tNext = W + cfg.windowMs) :
    (rlSession cfg clientKey (ts ++ [tNext])).1.length = ts.length + 1
    ∧ (∀ i, i < ts.length → i < cfg.maxRequests →
        ((rlSession cfg clientKey (ts ++ [tNext])).1.getD i
            mwDefault).nextCalled = true
        ∧ ((rlSession cfg clientKey (ts ++ [tNext])).1.getD i
            mwDefault).info.remaining = cfg.maxRequests - i - 1)
    ∧ (∀ i, i < ts.length → cfg.maxRequests ≤ i →
        ((rlSession cfg clientKey (ts ++ [tNext])).1.getD i
            mwDefault).status = some 429
        ∧ 1 ≤ ((rlSession cfg clientKey (ts ++ [tNext])).1.getD i
            mwDefault).info.retryAfter.getD 0)
    ∧ ((rlSession cfg clientKey (ts ++ [tNext])).1.getD ts.length
        mwDefault).nextCalled = true := by
  have hinv0 : RLReady cfg clientKey W 0 (RedisCache.new (String × Nat) Nat) :=
    ⟨rfl, Or.inl ⟨rfl, rfl⟩⟩
  have hrun := runRateLimit_in_window cfg clientKey W hw hdvd ts 0
    (RedisCache.new (String × Nat) Nat) (by omega) hinv0 hts
  simp only [Nat.zero_add] at hrun
  have hL1 : (runRateLimit cfg clientKey
      (RedisCache.new (String × Nat) Nat) ts).1.length = ts.length := hrun.1
  have hnextStep := rateLimit_step_next_window cfg clientKey W
    (min ts.length cfg.maxRequests)
    (runRateLimit cfg clientKey (RedisCache.new (String × Nat) Nat) ts).2
    tNext hw hrun.2.2.2 hnext hN
  have happ := runRateLimit_append cfg clientKey ts [tNext]
    (RedisCache.new (String × Nat) Nat)
  simp only [rlSession, happ, runRateLimit_cons, runRateLimit_nil]
  refine ⟨?_, ?_, ?_, ?_⟩
  · simp [hL1]
  · intro i hi hik
    rw [List.getD_append _ _ _ _ (by omega)]
    exact hrun.2.1 i hi hik
  · intro i hi hik
    rw [List.getD_append _ _ _ _ (by omega)]
    exact hrun.2.2.1 i hi hik
  · rw [List.getD_append_right _ _ _ _ (by omega)]
    rw [hL1, Nat.sub_self]
    simpa using hnextStep

/-- Witness for C1 with limit 2 and a 60-second window: three requests at
times 0, 1, 2 ms — the first two pass with remaining 1 then 0, the third
is rejected with a positive retry delay — and the request at 60000 ms,
the next window, passes again. -/
theorem quota_window_enforcement_witness :
    (rlSession { windowMs := 60000, maxRequests := 2 } ckW
        ([0, 1, 2] ++ [60000])).1.length = 4
    ∧ ((rlSession { windowMs := 60000, maxRequests := 2 } ckW
        ([0, 1, 2] ++ [60000])).1.getD 0 mwDefault).nextCalled = true
    ∧ ((rlSession { windowMs := 60000, maxRequests := 2 } ckW
        ([0, 1, 2] ++ [60000])).1.getD 0 mwDefault).info.remaining = 1
    ∧ ((rlSession { windowMs := 60000, maxRequests := 2 } ckW
        ([0, 1, 2] ++ [60000])).1.getD 1 mwDefault).info.remaining = 0
    ∧ ((rlSession { windowMs := 60000, maxRequests := 2 } ckW
        ([0, 1, 2] ++ [60000])).1.getD 2 mwDefault).status = some 429
    ∧ 1 ≤ ((rlSession { windowMs := 60000, maxRequests := 2 } ckW
        ([0, 1, 2] ++ [60000])).1.getD 2 mwDefault).info.retryAfter.getD 0
    ∧ ((rlSession { windowMs := 60000, maxRequests := 2 } ckW
        ([0, 1, 2] ++ [60000])).1.getD 3 mwDefault).nextCalled = true := by
  have h := quota_window_enforcement { windowMs := 60000, maxRequests := 2 }
    ckW [0, 1, 2] 60000 0 (by norm_num) (by norm_num) (by norm_num)
    (by decide) (by decide)
  exact ⟨h.1, (h.2.1 0 (by norm_num) (by norm_num)).1,
    (h.2.1 0 (by norm_num) (by norm_num)).2,
    (h.2.1 1 (by norm_num) (by norm_num)).2,
    (h.2.2.1 2 (by norm_num) (by norm_num)).1,
    (h.2.2.1 2 (by norm_num) (by norm_num)).2,
    h.2.2.2⟩

end FluxSight
